import Mathlib

/-!
Shallow embedding of the browser-automation session orchestrator of the
Sam_filter repository (src/app.py), together with theorems settling the
frozen claims about it.

Modelling conventions:
* A directory snapshot is a list of `FsFile` records (name and mtime).
  Since the source reads directories only through `pathlib.Path.glob`
  patterns that never match dot-prefixed names, a snapshot holds exactly
  the glob-visible (non-hidden) regular files of the directory.
* Wall-clock time is modelled by integer timestamps; polling loops become
  structural recursion on the number of remaining poll ticks, with the
  tick index selecting a directory snapshot / page observation from an
  environment function `Nat → _`.
* Selenium calls that can raise are modelled as `Except String _` values
  supplied by an environment record; `try/except` blocks of the source
  become `match` on those values.
-/

namespace SamFilter

/-- A glob-visible regular file in a download directory: its name and its
modification time (`st_mtime`), modelled as a natural number. -/
structure FsFile where
  name : String
  mtime : Nat
deriving DecidableEq, Repr

/-- The temporary-download suffixes of app.py lines 509 and 524:
`.crdownload`, `.tmp`, `.partial`. -/
def tempSuffixes : List String := [".crdownload", ".tmp", ".partial"]

/-- Python `str.endswith` / the tail of a `*.<ext>` glob pattern. -/
def strEndsWith (s suffix : String) : Bool :=
  decide (suffix.data <:+ s.data)

/-- `_has_temp_download` (app.py 506-509): whether any file in the
directory matches one of the temporary-download glob patterns. -/
def _has_temp_download (dir : List FsFile) : Bool :=
  dir.any (fun f => tempSuffixes.any (fun ext => strEndsWith f.name ext))

/-- `_list_non_temp_files` (app.py 521-524): the files of the directory
whose names do not end with a temporary-download suffix. The source
builds Python `set`s from this list, so we return a `Finset` of names. -/
def _list_non_temp_files (dir : List FsFile) : Finset String :=
  ((dir.filter (fun f => !(tempSuffixes.any (fun ext => strEndsWith f.name ext)))).map
    (fun f => f.name)).toFinset

/-- One step of Python `max(…, key=lambda q: q.stat().st_mtime)`: a new
element replaces the running maximum only when strictly greater, so the
first maximal element wins ties, as in Python. -/
def pickNewer (acc : Option FsFile) (f : FsFile) : Option FsFile :=
  match acc with
  | none => some f
  | some g => if f.mtime > g.mtime then some f else some g

/-- `max` over a list by `mtime`, keeping the earlier element on ties. -/
def maxByMtime (l : List FsFile) : Option FsFile :=
  l.foldl pickNewer none

/-- `_newest_pdf` (app.py 512-518): the name of the `.pdf` file of the
directory with the greatest `st_mtime`, or `none` if there is no pdf. -/
def _newest_pdf (dir : List FsFile) : Option String :=
  let pdfs := dir.filter (fun f => strEndsWith f.name ".pdf")
  (maxByMtime pdfs).map (fun f => f.name)

/-! ## Folder-name sanitization (`_sanitize_folder_name`, app.py 489-496) -/

/-- The characters of the regular-expression class `[\\/:*?"<>|]`. -/
def isBadChar (c : Char) : Bool :=
  c = '\\' || c = '/' || c = ':' || c = '*' || c = '?' || c = '\"' ||
  c = '<' || c = '>' || c = '|'

/-- ASCII whitespace as matched by Python `\s` and stripped by `str.strip`. -/
def isPySpace (c : Char) : Bool :=
  c = ' ' || c = '\t' || c = '\n' || c = '\r' || c = '\x0b' || c = '\x0c'

/-- `str.strip()`: drop whitespace from both ends. -/
def stripChars (l : List Char) : List Char :=
  ((l.dropWhile isPySpace).reverse.dropWhile isPySpace).reverse

/-- `re.sub(r"[\\/:*?\"<>|]+", " ", ·)`, scanned left to right: a single
space is emitted at the first character of each maximal run of bad
characters (the flag records whether the previous character belonged to
such a run), other characters pass through. -/
def subBadAux : Bool → List Char → List Char
  | _, [] => []
  | prevBad, c :: cs =>
    if isBadChar c then
      if prevBad then subBadAux true cs else ' ' :: subBadAux true cs
    else c :: subBadAux false cs

/-- Replace every maximal run of bad characters by a single space. -/
def subBadRuns (l : List Char) : List Char := subBadAux false l

/-- `re.sub(r"\s+", " ", ·)`, scanned the same way. -/
def collapseAux : Bool → List Char → List Char
  | _, [] => []
  | prevWs, c :: cs =>
    if isPySpace c then
      if prevWs then collapseAux true cs else ' ' :: collapseAux true cs
    else c :: collapseAux false cs

/-- Replace every maximal run of whitespace by a single space. -/
def collapseWs (l : List Char) : List Char := collapseAux false l

/-- `_sanitize_folder_name` (app.py 489-496): strip, replace runs of
non-filesystem-safe characters by a space, collapse whitespace and strip
again, default to `"Untitled"` when empty, truncate to 120 characters. -/
def _sanitize_folder_name (s : String) : String :=
  let l0 := stripChars s.data
  let l1 := subBadRuns l0
  let l2 := stripChars (collapseWs l1)
  let l3 := if l2 = [] then "Untitled".data else l2
  ⟨l3.take 120⟩

/-! ## Persistent browser session (`_get_persistent_edge_driver`, app.py 528-645) -/

/-- The module-level session globals of app.py lines 106-107:
`_persistent_driver` (modelled as an opaque handle number) and
`_session_start_time`. No other session-related global exists; in
particular no last-activity timestamp is tracked. -/
structure SessionState where
  _persistent_driver : Option Nat
  _session_start_time : Option Int
deriving DecidableEq, Repr

/-- `_session_timeout` (app.py 108): 1 hour, in seconds. -/
def _session_timeout : Int := 3600

/-- `_max_session_age` (app.py 109): 4 hours, in seconds. -/
def _max_session_age : Int := 14400

/-- The `needs_new_session` predicate of app.py lines 534-539, verbatim:
no driver, no start time, start time older than `_session_timeout`, or
start time older than `_max_session_age`. When the start time is `None`
the subtraction is short-circuited away in Python; `getD 0` mirrors that
unreachable branch. -/
def needs_new_session (driver : Option Nat) (start : Option Int)
    (current_time : Int) : Bool :=
  driver.isNone || start.isNone ||
    decide (current_time - start.getD 0 > _session_timeout) ||
    decide (current_time - start.getD 0 > _max_session_age)

/-- The simpler predicate of claim C10: the `_max_session_age` disjunct
dropped. (Stated from the claim, to be compared with the source's
`needs_new_session`.) -/
def needs_new_session_simple (driver : Option Nat) (start : Option Int)
    (current_time : Int) : Bool :=
  driver.isNone || start.isNone ||
    decide (current_time - start.getD 0 > _session_timeout)

/-- Result of one `_get_persistent_edge_driver` call: the new global
state, the returned driver handle, and whether a new browser process was
started. -/
structure AcquireResult where
  state : SessionState
  handle : Nat
  createdNew : Bool
deriving DecidableEq, Repr

/-- `_get_persistent_edge_driver` (app.py 528-645). `probeAlive` is the
outcome of the `driver.current_url` liveness probe (line 545);
`freshHandle` is the handle of the browser process that would be started
were a new session created. Browser start-up is modelled as succeeding
(the claims do not concern `SessionUnavailable`), and the per-request
CDP download-directory rebind (lines 549-556) touches no session state
so it does not appear. On creation, `_session_start_time` is set to the
current time (line 632). -/
def _get_persistent_edge_driver (st : SessionState) (current_time : Int)
    (probeAlive : Bool) (freshHandle : Nat) : AcquireResult :=
  let needs := needs_new_session st._persistent_driver st._session_start_time
    current_time
  match st._persistent_driver with
  | some d =>
    if !needs then
      if probeAlive then
        { state := st, handle := d, createdNew := false }
      else
        -- line 560-562: dead session, fall through to creation
        { state := ⟨some freshHandle, some current_time⟩,
          handle := freshHandle, createdNew := true }
    else
      { state := ⟨some freshHandle, some current_time⟩,
        handle := freshHandle, createdNew := true }
  | none =>
    { state := ⟨some freshHandle, some current_time⟩,
      handle := freshHandle, createdNew := true }

/-- `_cleanup_persistent_session` (app.py 1210-1221): quit and clear the
globals when a driver exists; when none exists the body is skipped, so
any leftover `_session_start_time` stays. -/
def _cleanup_persistent_session (st : SessionState) : SessionState :=
  match st._persistent_driver with
  | some _ => ⟨none, none⟩
  | none => st

/-! ## Login gate (`_ensure_sam_login`, app.py 648-764) -/

/-- What the page shows at each poll tick of the login wait. Tick 0 is
the initial indicator sweep of lines 672-681; ticks 1, 2, … are the loop
iterations of lines 703-749 (one every 3 seconds). `loginVisible t` is
true when some sign-in indicator's first match is displayed at tick `t`;
`profileVisible t` likewise for the logged-in indicators of lines
723-730. -/
structure LoginEnv where
  loginVisible : Nat → Bool
  profileVisible : Nat → Bool

/-- The wait loop of app.py lines 703-749, returning `login_complete`.
The deadline is 600 seconds polled every 3 seconds, hence 200 ticks of
fuel. At each tick: if the sign-in indicators are gone, complete (line
717-720); otherwise if a profile indicator is visible, complete (lines
732-743); otherwise keep polling. -/
def loginWaitLoop (env : LoginEnv) (t : Nat) : Nat → Bool
  | 0 => false
  | fuel + 1 =>
    if !env.loginVisible t then true
    else if env.profileVisible t then true
    else loginWaitLoop env (t + 1) fuel

/-- The body of the `try` block of app.py lines 661-757: sweep the
sign-in indicators; when one is visible, wait for login and raise
`RuntimeError("Login timeout ...")` when the 10-minute deadline passes
(line 752). -/
def ensureInner (env : LoginEnv) : Except String Unit :=
  if env.loginVisible 0 then
    if loginWaitLoop env 1 200 then Except.ok ()
    else Except.error "Login timeout - please ensure you are logged into SAM.gov and try again"
  else Except.ok ()

/-- `_ensure_sam_login` (app.py 648-764): the whole function. The
`except Exception` handler at lines 759-762 catches every exception the
`try` body raises - including the login-timeout `RuntimeError` raised
inside that same `try` at line 752 - prints it, and continues, so the
function returns normally. The function never touches the session
globals. -/
def _ensure_sam_login (env : LoginEnv) : Except String Unit :=
  match ensureInner env with
  | Except.ok _ => Except.ok ()
  | Except.error _ => Except.ok ()  -- swallowed: lines 759-762

/-! ## Ordered selector fallback chains -/

/-- A DOM element as far as selector resolution is concerned: an
identity tag and whether `is_displayed()` holds. A candidate locator's
matches are a `List Elem` in document order. -/
structure Elem where
  id : Nat
  displayed : Bool
deriving DecidableEq, Repr

/-- The resolution pattern of the login-indicator sweeps (app.py
663-681 and 707-715, also 732-740): for each candidate in order, take
`elements[0]` and accept it only when `elements` is non-empty and that
FIRST element `is_displayed()`; otherwise move to the next candidate. -/
def findFirstIndicator : List (List Elem) → Option Elem
  | [] => none
  | es :: rest =>
    match es with
    | [] => findFirstIndicator rest
    | e :: _ => if e.displayed then some e else findFirstIndicator rest

/-- The resolution pattern of the download-menu chains (app.py
1060-1068, 1084-1092, 1108-1116, 1132-1140) and the tab chain (787-795):
for each candidate in order, accept `elements[0]` whenever `elements` is
non-empty; `is_displayed()` is not consulted. -/
def findFirstElement : List (List Elem) → Option Elem
  | [] => none
  | es :: rest =>
    match es with
    | [] => findFirstElement rest
    | e :: _ => some e

/-- The resolver described by claim C4 (stated from the claim, to be
compared with the source's two patterns): the first candidate having at
least one visible matching element wins, and within the winning
candidate the first element in document order is taken. -/
def resolveSpec : List (List Elem) → Option Elem
  | [] => none
  | es :: rest =>
    if es.any (fun e => e.displayed) then es.head? else resolveSpec rest

/-! ## Extraction engine (`_extract_links_and_attachments_info`, app.py 767-894) -/

/-- Python `sub in s` substring test. -/
def containsSub (s sub : String) : Bool :=
  decide (sub.data <:+: s.data)

/-- A `LinkInfo` record as built at app.py 817-821 (`type` is always
`"external"`). -/
structure LinkInfo where
  url : String
  text : String
  type : String
deriving DecidableEq, Repr

/-- An `AttachmentInfo` record as built at app.py 874-880 (`type` is
always `"file"`). -/
structure AttachmentInfo where
  filename : String
  url : String
  text : String
  size : String
  type : String
deriving DecidableEq, Repr

/-- The `result` dictionary of app.py line 769. -/
structure ExtractResult where
  links : List LinkInfo
  attachments : List AttachmentInfo
deriving DecidableEq, Repr

/-- An anchor element as seen by the link loop (app.py 809-823): the
outcomes of `get_attribute('href')` (which may raise, and may return
`None`) and of `.text` (which may raise). -/
structure LinkElem where
  href : Except String (Option String)
  text : Except String String

/-- An element matched by one of the attachment selectors (app.py
847-880): outcomes of `.text`, `get_attribute('href')`, and of the
parent-text size recovery of lines 863-872 (the parent lookup plus the
size-keyword/regular-expression scan, abstracted into the environment;
its own `try` turns a raise into an empty size). -/
structure AttachElem where
  text : Except String String
  href : Except String (Option String)
  parentSize : Except String String

/-- Everything the extraction function observes from the driver: the
tab-candidate chain (app.py 787-795, each `find_elements` may raise),
the outcome of the tab click (line 802, uncaught inside the outer
`try`), the anchor query (line 808), and the nine attachment selector
queries (lines 844-884). -/
structure ExtractEnv where
  tabCandidates : List (Except String (List Nat))
  tabClick : Except String Unit
  linkQuery : Except String (List LinkElem)
  attachQueries : List (Except String (List AttachElem))

/-- The tab-candidate chain of app.py 787-795: first candidate whose
`find_elements` succeeds with a non-empty list wins, its first element
is taken; a raising candidate is skipped (`continue`). -/
def findTab : List (Except String (List Nat)) → Option Nat
  | [] => none
  | Except.error _ :: rest => findTab rest
  | Except.ok [] :: rest => findTab rest
  | Except.ok (e :: _) :: _ => some e

/-- The link loop of app.py 809-823: per element, read `href` and
`text` (a raise in either skips the element, line 822); keep absolute
non-sam.gov HTTP(S) URLs; dedupe by `url`, first occurrence wins; the
displayed text defaults to the URL when empty. -/
def extLinks : List LinkElem → List LinkInfo → List LinkInfo
  | [], acc => acc
  | el :: rest, acc =>
    match el.href, el.text with
    | Except.ok href?, Except.ok txt =>
      let t := txt.trim
      match href? with
      | some h =>
        if h.startsWith "http" && !containsSub h "sam.gov" then
          if (acc.map (fun i => i.url)).contains h then extLinks rest acc
          else extLinks rest (acc ++ [⟨h, if t = "" then h else t, "external"⟩])
        else extLinks rest acc
      | none => extLinks rest acc
    | _, _ => extLinks rest acc

/-- `file_extensions` of app.py line 854. -/
def fileExtensions : List String :=
  [".pdf", ".doc", ".docx", ".xlsx", ".xls", ".zip", ".txt"]

/-- The filename derivation of app.py 852-859: the visible text when it
contains a known document extension, else the trailing path segment of
the `href` when that does, else empty. -/
def deriveFilename (text href : String) : String :=
  if text ≠ "" && fileExtensions.any (fun e => containsSub text.toLower e) then
    text
  else if href ≠ "" && fileExtensions.any (fun e => containsSub href.toLower e) then
    (href.splitOn "/").getLastD ""
  else ""

/-- One attachment selector's element loop (app.py 847-882): derive a
filename from the visible text when it contains a known extension, else
from the trailing path segment of the `href`; dedupe by filename, first
occurrence wins; a raise while reading the element skips it (line 881);
a raise in the size recovery leaves the size empty (line 871). -/
def extAttachOne : List AttachElem → List AttachmentInfo → List AttachmentInfo
  | [], acc => acc
  | el :: rest, acc =>
    match el.text, el.href with
    | Except.ok txt, Except.ok href? =>
      let text := txt.trim
      let href := href?.getD ""
      let filename := deriveFilename text href
      if filename ≠ "" && !((acc.map (fun i => i.filename)).contains filename) then
        let size := match el.parentSize with
          | Except.error _ => ""
          | Except.ok s => s
        extAttachOne rest (acc ++ [⟨filename, href, text, size, "file"⟩])
      else extAttachOne rest acc
    | _, _ => extAttachOne rest acc

/-- The selector loop of app.py 844-884: a raising selector query is
skipped (`continue`, line 883); the accumulator carries across
selectors, so dedupe-by-filename is global to the pass. -/
def extAttachments : List (Except String (List AttachElem)) → List AttachmentInfo →
    List AttachmentInfo
  | [], acc => acc
  | Except.error _ :: rest, acc => extAttachments rest acc
  | Except.ok els :: rest, acc => extAttachments rest (extAttachOne els acc)

/-- `_extract_links_and_attachments_info` (app.py 767-894). The outer
`try/except` at lines 771 and 891-893 returns the `result` accumulated
so far on any uncaught raise; the only raise point not covered by an
inner handler is the tab click (line 802), at which moment `result` is
still empty. When no tab candidate matches, the function returns the
empty result (lines 797-799). The function always returns a record and
never propagates an exception. -/
def _extract_links_and_attachments_info (env : ExtractEnv) : ExtractResult :=
  match findTab env.tabCandidates with
  | none => ⟨[], []⟩
  | some _ =>
    match env.tabClick with
    | Except.error _ => ⟨[], []⟩
    | Except.ok _ =>
      let links := match env.linkQuery with
        | Except.error _ => []
        | Except.ok els => extLinks els []
      let atts := extAttachments env.attachQueries []
      ⟨links, atts⟩

/-! ## Download completion detection (app.py 897-945 and 1148-1172) -/

/-- The wait loop of `_download_attachments_on_page` (app.py 930-941):
240 one-second ticks; at each tick, skip when a temporary file is
present, else diff the fresh snapshot against `before` and return the
difference when non-empty; on deadline expiry return the empty set
(line 941). `dirs t` is the directory snapshot seen at tick `t`. -/
def attachWait (dirs : Nat → List FsFile) (before : Finset String) :
    Nat → Nat → Finset String
  | _, 0 => ∅
  | t, fuel + 1 =>
    if _has_temp_download (dirs t) then attachWait dirs before (t + 1) fuel
    else
      let neu := _list_non_temp_files (dirs t) \ before
      if neu = ∅ then attachWait dirs before (t + 1) fuel else neu

/-- `_download_attachments_on_page` (app.py 897-945): snapshot the
non-temporary files before the action (line 899), trigger Download All,
then run the wait loop. When no Download All control resolves, the
`RuntimeError` of line 927 is caught by the function's own handler
(lines 943-945) and the empty list is returned. -/
def _download_attachments_on_page (downloadAllFound : Bool)
    (dirs : Nat → List FsFile) : Finset String :=
  let before := _list_non_temp_files (dirs 0)
  if downloadAllFound then attachWait dirs before 1 240
  else ∅

/-- The primary-document wait loop of app.py 1148-1169: `timeout_secs`
= 300 seconds polled every 2 seconds, hence 150 ticks; at each tick,
skip when a temporary file is present, else take the newest pdf if any
and rename it to `SAM_<notice_id>.pdf` (lines 1158-1163; the move is
modelled as succeeding, and is skipped when the file already bears that
name); on deadline expiry return `none`. -/
def pdfWait (dirs : Nat → List FsFile) (noticeId : String) :
    Nat → Nat → Option String
  | _, 0 => none
  | t, fuel + 1 =>
    if _has_temp_download (dirs t) then pdfWait dirs noticeId (t + 1) fuel
    else
      match _newest_pdf (dirs t) with
      | some p =>
        let newName := "SAM_" ++ noticeId ++ ".pdf"
        some (if p = newName then p else newName)
      | none => pdfWait dirs noticeId (t + 1) fuel

/-- The menu traversal guarding the primary-document download (app.py
1049-1178): the wait loop runs only when the More menu, the Download
item and the final submit button all resolved; the PDF format option
(lines 1099-1121) is optional and does not gate the flow; any missing
step leaves `main_pdf = None` with a log line only. -/
structure PdfEnv where
  moreFound : Bool
  downloadFound : Bool
  pdfOptionFound : Bool
  finalFound : Bool
  dirs : Nat → List FsFile

/-- The primary-document section of app.py 1044-1181 (its `try`
swallows everything, so it is total and yields `Option`). -/
def pdfSection (env : PdfEnv) (noticeId : String) : Option String :=
  if env.moreFound then
    if env.downloadFound then
      if env.finalFound then pdfWait env.dirs noticeId 1 150
      else none
    else none
  else none

/-! ## The automation run (`_sam_download_with_persistent_session`, app.py 948-1207) -/

/-- The dictionary returned at app.py 1197-1202. -/
structure RunResult where
  pdf : Option String
  attachments : Finset String
  links_info : List LinkInfo
  attachments_info : List AttachmentInfo
deriving DecidableEq

/-- The page/driver behaviour one automation run observes after the
session is acquired: the login-gate environment, whether the search
input resolved (app.py 969-998), whether opportunity links were found
(1019-1026), and the extraction/download environments. -/
structure RunEnv where
  login : LoginEnv
  searchFound : Bool
  oppLinksFound : Bool
  extract : ExtractEnv
  pdfEnv : PdfEnv
  downloadAllFound : Bool
  attachDirs : Nat → List FsFile

/-- The body of the `try` at app.py 961-1202: login gate, search-input
resolution (raises at line 998 when nothing resolves), opportunity-link
lookup (raises at line 1026 when empty), extraction, primary-document
section, bulk attachments, then the result record. None of these steps
reads or writes the session globals. -/
def samAutomationBody (env : RunEnv) (noticeId : String) : Except String RunResult :=
  match _ensure_sam_login env.login with
  | Except.error e => Except.error e
  | Except.ok _ =>
    if !env.searchFound then Except.error "Could not find search input on SAM.gov"
    else if !env.oppLinksFound then
      Except.error "No opportunity links found in search results."
    else
      let info := _extract_links_and_attachments_info env.extract
      let mainPdf := pdfSection env.pdfEnv noticeId
      let atts := _download_attachments_on_page env.downloadAllFound env.attachDirs
      Except.ok ⟨mainPdf, atts, info.links, info.attachments⟩

/-- `_sam_download_with_persistent_session` (app.py 948-1207): acquire
the persistent driver, run the body, and on an exception re-raise it
without quitting or replacing the driver (lines 1204-1207) - the
session globals after the run are exactly the ones the acquire left,
whether the body succeeded or failed. -/
def _sam_download_with_persistent_session (st : SessionState) (current_time : Int)
    (probeAlive : Bool) (freshHandle : Nat) (env : RunEnv) (noticeId : String) :
    SessionState × Except String RunResult :=
  let acq := _get_persistent_edge_driver st current_time probeAlive freshHandle
  match samAutomationBody env noticeId with
  | Except.error e => (acq.state, Except.error e)
  | Except.ok r => (acq.state, Except.ok r)

/-! ## Theorems -/

theorem loginWaitLoop_never (env : LoginEnv)
    (hlogin : ∀ t, env.loginVisible t = true)
    (hprof : ∀ t, env.profileVisible t = false) :
    ∀ fuel t, loginWaitLoop env t fuel = false := by
  intro fuel
  induction fuel with
  | zero => intro t; rfl
  | succ n ih => intro t; simp [loginWaitLoop, hlogin t, hprof t, ih]

/-- C1: when the sign-in indicators stay visible at every poll tick and
no logged-in indicator ever shows, the wait loop exhausts its 10-minute
deadline and line 752 raises the login-timeout `RuntimeError` - but that
raise happens inside the `try` of line 661, whose `except Exception`
handler (lines 759-762) swallows it, so `_ensure_sam_login` returns
normally instead of propagating a `LoginTimeout`. The session globals
are untouched throughout (the function never writes them), so the
session handle indeed stays alive - but the claim's "the call raises
rather than returning normally" is contradicted by the code. -/
theorem ensure_login_timeout_is_swallowed (env : LoginEnv)
    (hlogin : ∀ t, env.loginVisible t = true)
    (hprof : ∀ t, env.profileVisible t = false) :
    ensureInner env =
      Except.error "Login timeout - please ensure you are logged into SAM.gov and try again"
    ∧ _ensure_sam_login env = Except.ok () := by
  have hloop := loginWaitLoop_never env hlogin hprof
  constructor
  · simp [ensureInner, hlogin 0, hloop]
  · simp [_ensure_sam_login, ensureInner, hlogin 0, hloop]

/-- Concrete run of C1's theorem: indicators visible at every tick. -/
theorem ensure_login_timeout_is_swallowed_witness :
    ensureInner ⟨fun _ => true, fun _ => false⟩ =
      Except.error "Login timeout - please ensure you are logged into SAM.gov and try again"
    ∧ _ensure_sam_login ⟨fun _ => true, fun _ => false⟩ = Except.ok () :=
  ensure_login_timeout_is_swallowed ⟨fun _ => true, fun _ => false⟩
    (fun _ => rfl) (fun _ => rfl)

/-- C3, counterexample: a live session created at time 0, re-acquired at
time 100 (well within both limits, probe succeeding). The handle is
reused and no new process starts, but the claim's final conjunct fails:
no timestamp is updated on the successful acquire - the module's only
timestamp global, `_session_start_time`, still holds the creation time 0
rather than the acquire time 100 (app.py sets it only at line 632, on
creation), and no last-activity global exists at all (lines 105-109). -/
theorem acquire_does_not_update_lastActivity :
    ¬ ((_get_persistent_edge_driver ⟨some 7, some 0⟩ 100 true 99).createdNew = false
      ∧ (_get_persistent_edge_driver ⟨some 7, some 0⟩ 100 true 99).handle = 7
      ∧ (_get_persistent_edge_driver ⟨some 7, some 0⟩ 100 true 99).state._session_start_time
          = some 100) := by
  decide

/-- C3, amended: for every acquire call made within `_session_timeout`
(1 hour) of the session's CREATION (the code tracks no last-activity
time; both age disjuncts measure from `_session_start_time`), against a
session whose liveness probe succeeds, no new browser process is
started and the existing handle is returned - and the session globals
are left completely unchanged: in particular no timestamp is updated on
the successful acquire. -/
theorem acquire_within_timeout_reuses (st : SessionState) (cur : Int)
    (fresh : Nat) (d : Nat) (s : Int)
    (hd : st._persistent_driver = some d)
    (hs : st._session_start_time = some s)
    (hage : cur - s ≤ _session_timeout) :
    (_get_persistent_edge_driver st cur true fresh).createdNew = false
    ∧ (_get_persistent_edge_driver st cur true fresh).handle = d
    ∧ (_get_persistent_edge_driver st cur true fresh).state = st := by
  obtain ⟨dr, stt⟩ := st
  cases hd
  cases hs
  have h1 : decide (cur - s > _session_timeout) = false := by
    simp only [decide_eq_false_iff_not]
    omega
  have h2 : decide (cur - s > _max_session_age) = false := by
    simp only [decide_eq_false_iff_not, _max_session_age]
    simp only [_session_timeout] at hage
    omega
  simp [_get_persistent_edge_driver, needs_new_session, h1, h2]

/-- Concrete run of C3's amended theorem. -/
theorem acquire_within_timeout_reuses_witness :
    (_get_persistent_edge_driver ⟨some 7, some 0⟩ 100 true 99).createdNew = false
    ∧ (_get_persistent_edge_driver ⟨some 7, some 0⟩ 100 true 99).handle = 7
    ∧ (_get_persistent_edge_driver ⟨some 7, some 0⟩ 100 true 99).state = ⟨some 7, some 0⟩ :=
  acquire_within_timeout_reuses ⟨some 7, some 0⟩ 100 99 7 0 rfl rfl (by decide)

/-- C4, counterexample: the code does not implement "first candidate
with at least one visible match". Left conjunct (login-indicator
pattern, app.py 673-681): candidate 1 matches a hidden element followed
by a visible one, candidate 2 a visible element; the claim picks
candidate 1, the code inspects only `elements[0]`, skips candidate 1
and answers from candidate 2. Right conjunct (download-menu pattern,
app.py 1060-1068): candidate 1's only match is invisible; the claim
passes over it, the code takes it because it never consults
`is_displayed()` there. -/
theorem resolver_differs_from_spec :
    (findFirstIndicator [[⟨0, false⟩, ⟨1, true⟩], [⟨2, true⟩]]
      ≠ resolveSpec [[⟨0, false⟩, ⟨1, true⟩], [⟨2, true⟩]])
    ∧ (findFirstElement [[⟨0, false⟩], [⟨1, true⟩]]
      ≠ resolveSpec [[⟨0, false⟩], [⟨1, true⟩]]) := by
  decide

theorem findFirstIndicator_characterization (c : List (List Elem)) (e : Elem)
    (h : findFirstIndicator c = some e) :
    e.displayed = true
    ∧ ∃ pre es post, c = pre ++ es :: post ∧ es.head? = some e
      ∧ ∀ es' ∈ pre, ∀ e', es'.head? = some e' → e'.displayed = false := by
  induction c with
  | nil => simp [findFirstIndicator] at h
  | cons es rest ih =>
    match es with
    | [] =>
      simp only [findFirstIndicator] at h
      obtain ⟨hdisp, pre, es', post, hc, hh, hpre⟩ := ih h
      exact ⟨hdisp, [] :: pre, es', post, by simp [hc], hh, by
        intro es'' hmem e' he'
        rcases List.mem_cons.mp hmem with h1 | h1
        · subst h1; simp at he'
        · exact hpre es'' h1 e' he'⟩
    | x :: xs =>
      simp only [findFirstIndicator] at h
      by_cases hx : x.displayed
      · simp only [hx, if_true, Option.some.injEq] at h
        subst h
        exact ⟨hx, [], x :: xs, rest, rfl, rfl, by simp⟩
      · simp only [hx, if_false] at h
        obtain ⟨hdisp, pre, es', post, hc, hh, hpre⟩ := ih h
        refine ⟨hdisp, (x :: xs) :: pre, es', post, by simp [hc], hh, ?_⟩
        intro es'' hmem e' he'
        rcases List.mem_cons.mp hmem with h1 | h1
        · subst h1
          simp only [List.head?_cons, Option.some.injEq] at he'
          subst he'
          exact Bool.eq_false_iff.mpr hx
        · exact hpre es'' h1 e' he'

theorem findFirstElement_characterization (c : List (List Elem)) (e : Elem)
    (h : findFirstElement c = some e) :
    ∃ pre es post, c = pre ++ es :: post ∧ es.head? = some e
      ∧ ∀ es' ∈ pre, es' = [] := by
  induction c with
  | nil => simp [findFirstElement] at h
  | cons es rest ih =>
    match es with
    | [] =>
      simp only [findFirstElement] at h
      obtain ⟨pre, es', post, hc, hh, hpre⟩ := ih h
      exact ⟨[] :: pre, es', post, by simp [hc], hh, by
        intro es'' hmem
        rcases List.mem_cons.mp hmem with h1 | h1
        · exact h1
        · exact hpre es'' h1⟩
    | x :: xs =>
      simp only [findFirstElement, Option.some.injEq] at h
      subst h
      exact ⟨[], x :: xs, rest, rfl, rfl, by simp⟩

/-- C4, amended: what the candidate chains actually return. At the
login-indicator sites, the winner is the first candidate whose match
list is non-empty AND whose first element (document order) is
displayed; every earlier candidate has an empty match list or a hidden
first element; the winning candidate's first element is returned, so a
later candidate can win even when an earlier one contains a visible
non-first match. At the download-menu sites the winner is simply the
first candidate with a non-empty match list - visibility is never
consulted - and its first element in document order is returned. -/
theorem resolver_takes_first_by_code_rule (cA cB : List (List Elem)) (eA eB : Elem)
    (hA : findFirstIndicator cA = some eA) (hB : findFirstElement cB = some eB) :
    (eA.displayed = true
      ∧ ∃ pre es post, cA = pre ++ es :: post ∧ es.head? = some eA
        ∧ ∀ es' ∈ pre, ∀ e', es'.head? = some e' → e'.displayed = false)
    ∧ ∃ pre es post, cB = pre ++ es :: post ∧ es.head? = some eB
        ∧ ∀ es' ∈ pre, es' = [] :=
  ⟨findFirstIndicator_characterization cA eA hA,
   findFirstElement_characterization cB eB hB⟩

/-- Concrete run of C4's amended theorem. -/
theorem resolver_takes_first_by_code_rule_witness :
    ((⟨1, true⟩ : Elem).displayed = true
      ∧ ∃ pre es post, [[⟨0, false⟩], [⟨1, true⟩]] = pre ++ es :: post
        ∧ es.head? = some (⟨1, true⟩ : Elem)
        ∧ ∀ es' ∈ pre, ∀ e', es'.head? = some e' → e'.displayed = false)
    ∧ ∃ pre es post, [[], [⟨2, false⟩]] = pre ++ es :: post
        ∧ es.head? = some (⟨2, false⟩ : Elem)
        ∧ ∀ es' ∈ pre, es' = [] :=
  resolver_takes_first_by_code_rule [[⟨0, false⟩], [⟨1, true⟩]] [[], [⟨2, false⟩]]
    ⟨1, true⟩ ⟨2, false⟩ rfl rfl

/-- C5: at any poll tick at which some file with a temporary-download
suffix is present in the target directory, neither wait loop reports
completion: the bulk-attachment loop (app.py 933-934) and the
primary-document loop (app.py 1153-1154) both `continue`, so their
value at that tick is exactly their value from the next tick on, with
no file result produced at the current one. Consequently, if temporary
files persist at every tick, the loops run out their deadlines and
yield the empty set / no pdf. -/
theorem watcher_never_completes_on_temp (dirs : Nat → List FsFile)
    (before : Finset String) (noticeId : String) (t fuel : Nat)
    (h : _has_temp_download (dirs t) = true) :
    attachWait dirs before t (fuel + 1) = attachWait dirs before (t + 1) fuel
    ∧ pdfWait dirs noticeId t (fuel + 1) = pdfWait dirs noticeId (t + 1) fuel := by
  constructor
  · simp [attachWait, h]
  · simp [pdfWait, h]

/-- Concrete run of C5's theorem: a `.crdownload` file is present. -/
theorem watcher_never_completes_on_temp_witness :
    attachWait (fun _ => [⟨"report.crdownload", 3⟩]) ∅ 1 240
      = attachWait (fun _ => [⟨"report.crdownload", 3⟩]) ∅ 2 239
    ∧ pdfWait (fun _ => [⟨"report.crdownload", 3⟩]) "N1" 1 150
      = pdfWait (fun _ => [⟨"report.crdownload", 3⟩]) "N1" 2 149 :=
  ⟨(watcher_never_completes_on_temp (fun _ => [⟨"report.crdownload", 3⟩]) ∅ "N1" 1 239
      (by decide)).1,
   (watcher_never_completes_on_temp (fun _ => [⟨"report.crdownload", 3⟩]) ∅ "N1" 1 149
      (by decide)).2⟩

/-- C10: the `needs_new_session` predicate of app.py 534-539 is
equivalent to the simpler predicate without the `_max_session_age`
disjunct: both age disjuncts compare the same quantity
`current_time - _session_start_time`, and since `_session_timeout`
(3600 s) < `_max_session_age` (14400 s) the 4-hour disjunct can never
hold without the 1-hour one already holding. The session globals (app.py
105-109, the fields of `SessionState`) hold no last-activity or
idle-time quantity. -/
theorem needs_new_session_eq_simple (driver : Option Nat) (start : Option Int)
    (cur : Int) :
    needs_new_session driver start cur = needs_new_session_simple driver start cur := by
  rcases start with _ | s
  · simp [needs_new_session, needs_new_session_simple]
  · by_cases h : cur - s > _session_timeout
    · simp [needs_new_session, needs_new_session_simple, h]
    · have h2 : ¬ cur - s > _max_session_age := by
        simp only [_session_timeout] at h
        simp only [_max_session_age]
        omega
      simp [needs_new_session, needs_new_session_simple, h, h2]

theorem attachWait_all_blocked (dirs : Nat → List FsFile) (before : Finset String) :
    ∀ (fuel t0 : Nat),
      (∀ t, t0 ≤ t → t < t0 + fuel →
        _has_temp_download (dirs t) = true
        ∨ _list_non_temp_files (dirs t) \ before = ∅) →
      attachWait dirs before t0 fuel = ∅ := by
  intro fuel
  induction fuel with
  | zero => intro t0 _; rfl
  | succ n ih =>
    intro t0 h
    have hnext := ih (t0 + 1) (fun t h1 h2 => h t (by omega) (by omega))
    by_cases ht : _has_temp_download (dirs t0) = true
    · simp only [attachWait, ht, if_true]
      exact hnext
    · rcases h t0 (le_refl _) (by omega) with h0 | h0
      · exact absurd h0 ht
      · rw [Bool.not_eq_true] at ht
        simp only [attachWait, ht, Bool.false_eq_true, if_false, h0, if_true]
        exact hnext

theorem attachWait_first_new (dirs : Nat → List FsFile) (before : Finset String) :
    ∀ (fuel t0 t : Nat), t0 ≤ t → t < t0 + fuel →
      (∀ s, t0 ≤ s → s < t →
        _has_temp_download (dirs s) = true
        ∨ _list_non_temp_files (dirs s) \ before = ∅) →
      _has_temp_download (dirs t) = false →
      _list_non_temp_files (dirs t) \ before ≠ ∅ →
      attachWait dirs before t0 fuel = _list_non_temp_files (dirs t) \ before := by
  intro fuel
  induction fuel with
  | zero => intro t0 t h1 h2 _ _ _; omega
  | succ n ih =>
    intro t0 t h1 h2 hprev htemp hne
    rcases Nat.eq_or_lt_of_le h1 with heq | hlt
    · subst heq
      simp only [attachWait, htemp, Bool.false_eq_true, if_false]
      simp only [if_neg hne]
    · have hstep := hprev t0 (le_refl _) hlt
      have hrec := ih (t0 + 1) t (by omega) (by omega)
        (fun s hs1 hs2 => hprev s (by omega) hs2) htemp hne
      rcases hstep with h0 | h0
      · simp only [attachWait, h0, if_true]
        exact hrec
      · by_cases ht : _has_temp_download (dirs t0) = true
        · simp only [attachWait, ht, if_true]
          exact hrec
        · rw [Bool.not_eq_true] at ht
          simp only [attachWait, ht, Bool.false_eq_true, if_false, h0, if_true]
          exact hrec

/-- C2: the bulk-attachment wait of `_download_attachments_on_page`
returns exactly the set difference between the non-temporary files
present at the tick at which it reports completion (the first tick, out
of the 240 one-second polls, with no temporary file and a non-empty
difference against the pre-action snapshot `dirs 0`) and the
non-temporary files present before the Download All action; and when
every tick of the deadline either still shows temporary files or shows
no new non-temporary file, it returns the empty set - a normal return,
not an exception (the function's own handler at app.py 943-945 even
maps any exception to the same empty list). -/
theorem download_attachments_is_set_difference (dirs : Nat → List FsFile) :
    ((∀ t, 1 ≤ t → t ≤ 240 →
        _has_temp_download (dirs t) = true
        ∨ _list_non_temp_files (dirs t) \ _list_non_temp_files (dirs 0) = ∅) →
      _download_attachments_on_page true dirs = ∅)
    ∧ (∀ t, 1 ≤ t → t ≤ 240 →
        (∀ s, 1 ≤ s → s < t →
          _has_temp_download (dirs s) = true
          ∨ _list_non_temp_files (dirs s) \ _list_non_temp_files (dirs 0) = ∅) →
        _has_temp_download (dirs t) = false →
        _list_non_temp_files (dirs t) \ _list_non_temp_files (dirs 0) ≠ ∅ →
        _download_attachments_on_page true dirs
          = _list_non_temp_files (dirs t) \ _list_non_temp_files (dirs 0)) := by
  constructor
  · intro h
    simp only [_download_attachments_on_page, if_true]
    exact attachWait_all_blocked dirs _ 240 1 (fun t h1 h2 => h t h1 (by omega))
  · intro t h1 h2 hprev htemp hne
    simp only [_download_attachments_on_page, if_true]
    exact attachWait_first_new dirs _ 240 1 t h1 (by omega) hprev htemp hne

/-- Concrete runs of C2's theorem: an empty run, and a run whose first
poll tick reveals one new non-temporary file. -/
theorem download_attachments_is_set_difference_witness :
    _download_attachments_on_page true (fun _ => []) = ∅
    ∧ _download_attachments_on_page true
        (fun t => if t = 0 then [] else [⟨"spec.pdf", 4⟩])
      = _list_non_temp_files [⟨"spec.pdf", 4⟩] \ _list_non_temp_files [] := by
  constructor
  · exact (download_attachments_is_set_difference (fun _ => [])).1
      (fun t _ _ => Or.inr (by decide))
  · exact (download_attachments_is_set_difference
      (fun t => if t = 0 then [] else [⟨"spec.pdf", 4⟩])).2 1 (by omega) (by omega)
      (fun s hs1 hs2 => absurd hs1 (by omega)) (by decide) (by decide)

theorem pickNewer_ge (acc : Option FsFile) (f : FsFile) :
    ∃ a, pickNewer acc f = some a ∧ f.mtime ≤ a.mtime
      ∧ (a ∈ [f] ∨ acc = some a)
      ∧ ∀ g, acc = some g → g.mtime ≤ a.mtime := by
  match acc with
  | none => exact ⟨f, rfl, le_refl _, Or.inl (by simp), by intro g h; cases h⟩
  | some g =>
    by_cases h : f.mtime > g.mtime
    · exact ⟨f, by simp [pickNewer, h], le_refl _, Or.inl (by simp), by
        intro g' hg'; cases hg'; omega⟩
    · exact ⟨g, by simp [pickNewer, h], by omega, Or.inr rfl, by
        intro g' hg'; cases hg'; exact le_refl _⟩

theorem foldl_pickNewer_spec :
    ∀ (l : List FsFile) (acc : Option FsFile) (f : FsFile),
      l.foldl pickNewer acc = some f →
      (f ∈ l ∨ acc = some f)
      ∧ (∀ g ∈ l, g.mtime ≤ f.mtime)
      ∧ (∀ a, acc = some a → a.mtime ≤ f.mtime) := by
  intro l
  induction l with
  | nil =>
    intro acc f h
    simp only [List.foldl_nil] at h
    exact ⟨Or.inr h, by simp, by intro a ha; rw [ha] at h; cases h; exact le_refl _⟩
  | cons x xs ih =>
    intro acc f h
    simp only [List.foldl_cons] at h
    obtain ⟨hmem, hall, hacc⟩ := ih (pickNewer acc x) f h
    obtain ⟨a, ha, hxa, haorig, hup⟩ := pickNewer_ge acc x
    have hxf : x.mtime ≤ f.mtime := le_trans hxa (hacc a ha)
    refine ⟨?_, ?_, ?_⟩
    · rcases hmem with hmem | hmem
      · exact Or.inl (List.mem_cons_of_mem _ hmem)
      · rw [ha] at hmem
        cases hmem
        rcases haorig with h1 | h1
        · simp only [List.mem_singleton] at h1
          exact Or.inl (h1 ▸ List.mem_cons_self _ _)
        · exact Or.inr h1
    · intro g hg
      rcases List.mem_cons.mp hg with h1 | h1
      · exact h1 ▸ hxf
      · exact hall g h1
    · intro b hb
      exact le_trans (hup b hb) (hacc a ha)

theorem newest_pdf_is_max_mtime (dir : List FsFile) (p : String)
    (h : _newest_pdf dir = some p) :
    ∃ f ∈ dir, f.name = p ∧ strEndsWith f.name ".pdf" = true
      ∧ ∀ g ∈ dir, strEndsWith g.name ".pdf" = true → g.mtime ≤ f.mtime := by
  simp only [_newest_pdf, Option.map_eq_some'] at h
  obtain ⟨f, hf, hname⟩ := h
  obtain ⟨hmem, hall, _⟩ := foldl_pickNewer_spec _ none f hf
  rcases hmem with hmem | hmem
  · have h1 := List.mem_filter.mp hmem
    exact ⟨f, h1.1, hname, h1.2, fun g hg hpdf =>
      hall g (List.mem_filter.mpr ⟨hg, hpdf⟩)⟩
  · cases hmem

theorem pdfWait_all_blocked (dirs : Nat → List FsFile) (id : String) :
    ∀ (fuel t0 : Nat),
      (∀ t, t0 ≤ t → t < t0 + fuel →
        _has_temp_download (dirs t) = true ∨ _newest_pdf (dirs t) = none) →
      pdfWait dirs id t0 fuel = none := by
  intro fuel
  induction fuel with
  | zero => intro t0 _; rfl
  | succ n ih =>
    intro t0 h
    have hnext := ih (t0 + 1) (fun t h1 h2 => h t (by omega) (by omega))
    by_cases ht : _has_temp_download (dirs t0) = true
    · simp only [pdfWait, ht, if_true]
      exact hnext
    · rcases h t0 (le_refl _) (by omega) with h0 | h0
      · exact absurd h0 ht
      · rw [Bool.not_eq_true] at ht
        simp only [pdfWait, ht, Bool.false_eq_true, if_false, h0]
        exact hnext

theorem pdfWait_first_pdf (dirs : Nat → List FsFile) (id : String) :
    ∀ (fuel t0 t : Nat) (p : String), t0 ≤ t → t < t0 + fuel →
      (∀ s, t0 ≤ s → s < t →
        _has_temp_download (dirs s) = true ∨ _newest_pdf (dirs s) = none) →
      _has_temp_download (dirs t) = false →
      _newest_pdf (dirs t) = some p →
      pdfWait dirs id t0 fuel = some ("SAM_" ++ id ++ ".pdf") := by
  intro fuel
  induction fuel with
  | zero => intro t0 t p h1 h2 _ _ _; omega
  | succ n ih =>
    intro t0 t p h1 h2 hprev htemp hpdf
    rcases Nat.eq_or_lt_of_le h1 with heq | hlt
    · subst heq
      simp only [pdfWait, htemp, Bool.false_eq_true, if_false, hpdf]
      congr 1
      split
      · assumption
      · rfl
    · have hrec := ih (t0 + 1) t p (by omega) (by omega)
        (fun s hs1 hs2 => hprev s (by omega) hs2) htemp hpdf
      rcases hprev t0 (le_refl _) hlt with h0 | h0
      · simp only [pdfWait, h0, if_true]
        exact hrec
      · by_cases ht : _has_temp_download (dirs t0) = true
        · simp only [pdfWait, ht, if_true]
          exact hrec
        · rw [Bool.not_eq_true] at ht
          simp only [pdfWait, ht, Bool.false_eq_true, if_false, h0]
          exact hrec

theorem pdfWait_some_inv (dirs : Nat → List FsFile) (id : String) :
    ∀ (fuel t0 : Nat) (r : String),
      pdfWait dirs id t0 fuel = some r →
      r = "SAM_" ++ id ++ ".pdf"
      ∧ ∃ t, t0 ≤ t ∧ t < t0 + fuel ∧ _has_temp_download (dirs t) = false
        ∧ ∃ p, _newest_pdf (dirs t) = some p := by
  intro fuel
  induction fuel with
  | zero => intro t0 r h; cases h
  | succ n ih =>
    intro t0 r h
    by_cases ht : _has_temp_download (dirs t0) = true
    · simp only [pdfWait, ht, if_true] at h
      obtain ⟨hr, t, h1, h2, h3, h4⟩ := ih (t0 + 1) r h
      exact ⟨hr, t, by omega, by omega, h3, h4⟩
    · rw [Bool.not_eq_true] at ht
      simp only [pdfWait, ht, Bool.false_eq_true, if_false] at h
      cases hp : _newest_pdf (dirs t0) with
      | some p =>
        rw [hp] at h
        simp only [Option.some.injEq] at h
        refine ⟨?_, t0, le_refl _, by omega, ht, p, hp⟩
        rw [← h]
        split
        · assumption
        · rfl
      | none =>
        rw [hp] at h
        obtain ⟨hr, t, h1, h2, h3, h4⟩ := ih (t0 + 1) r h
        exact ⟨hr, t, by omega, by omega, h3, h4⟩

/-- C7: the primary-document wait (app.py 1148-1172) reports completion
exactly at a poll tick at which a pdf exists in the download directory
with no temporary-suffixed file present: (i) when no tick of the
5-minute deadline satisfies that, the result is `none` and nothing is
raised; (ii) the first satisfying tick yields `some`, the file being
renamed to `SAM_<notice_id>.pdf` (inside the download directory, whose
path prefix the model leaves implicit) and that name returned; (iii)
conversely any `some` result arises at such a tick and carries exactly
that name; and (iv) the pdf selected by `_newest_pdf` is one whose
modification time is greatest among the directory's pdfs. -/
theorem primary_document_completion (dirs : Nat → List FsFile) (id : String) :
    ((∀ t, 1 ≤ t → t ≤ 150 →
        _has_temp_download (dirs t) = true ∨ _newest_pdf (dirs t) = none) →
      pdfWait dirs id 1 150 = none)
    ∧ (∀ t p, 1 ≤ t → t ≤ 150 →
        (∀ s, 1 ≤ s → s < t →
          _has_temp_download (dirs s) = true ∨ _newest_pdf (dirs s) = none) →
        _has_temp_download (dirs t) = false →
        _newest_pdf (dirs t) = some p →
        pdfWait dirs id 1 150 = some ("SAM_" ++ id ++ ".pdf"))
    ∧ (∀ r, pdfWait dirs id 1 150 = some r →
        r = "SAM_" ++ id ++ ".pdf"
        ∧ ∃ t, 1 ≤ t ∧ t ≤ 150 ∧ _has_temp_download (dirs t) = false
          ∧ ∃ p, _newest_pdf (dirs t) = some p)
    ∧ (∀ (dir : List FsFile) (p : String), _newest_pdf dir = some p →
        ∃ f ∈ dir, f.name = p ∧ strEndsWith f.name ".pdf" = true
          ∧ ∀ g ∈ dir, strEndsWith g.name ".pdf" = true → g.mtime ≤ f.mtime) := by
  refine ⟨?_, ?_, ?_, ?_⟩
  · intro h
    exact pdfWait_all_blocked dirs id 150 1 (fun t h1 h2 => h t h1 (by omega))
  · intro t p h1 h2 hprev htemp hpdf
    exact pdfWait_first_pdf dirs id 150 1 t p h1 (by omega) hprev htemp hpdf
  · intro r h
    obtain ⟨hr, t, ht1, ht2, ht3, ht4⟩ := pdfWait_some_inv dirs id 150 1 r h
    exact ⟨hr, t, ht1, by omega, ht3, ht4⟩
  · intro dir p h
    exact newest_pdf_is_max_mtime dir p h

/-- Concrete run of C7's theorem: the first tick already shows a
finished pdf, which is reported under its deterministic new name. -/
theorem primary_document_completion_witness :
    pdfWait (fun t => if t = 0 then [] else [⟨"doc.pdf", 9⟩]) "N1" 1 150
      = some "SAM_N1.pdf" :=
  (primary_document_completion (fun t => if t = 0 then [] else [⟨"doc.pdf", 9⟩])
      "N1").2.1 1 "doc.pdf" (le_refl 1) (by omega)
    (fun s hs1 hs2 => absurd hs1 (by omega)) (by decide) (by decide)

theorem acquire_reuse_core (st : SessionState) (cur : Int) (fresh d : Nat) (s : Int)
    (hd : st._persistent_driver = some d) (hs : st._session_start_time = some s)
    (hage : cur - s ≤ _session_timeout) :
    _get_persistent_edge_driver st cur true fresh = ⟨st, d, false⟩ := by
  obtain ⟨dr, stt⟩ := st
  cases hd
  cases hs
  have h1 : decide (cur - s > _session_timeout) = false := by
    simp only [decide_eq_false_iff_not]
    omega
  have h2 : decide (cur - s > _max_session_age) = false := by
    simp only [decide_eq_false_iff_not, _max_session_age]
    simp only [_session_timeout] at hage
    omega
  simp [_get_persistent_edge_driver, needs_new_session, h1, h2]

theorem acquire_dead_probe_replaces (st : SessionState) (cur : Int) (fresh d : Nat)
    (s : Int) (hd : st._persistent_driver = some d)
    (hs : st._session_start_time = some s) (hage : cur - s ≤ _session_timeout) :
    _get_persistent_edge_driver st cur false fresh
      = ⟨⟨some fresh, some cur⟩, fresh, true⟩ := by
  obtain ⟨dr, stt⟩ := st
  cases hd
  cases hs
  have h1 : decide (cur - s > _session_timeout) = false := by
    simp only [decide_eq_false_iff_not]
    omega
  have h2 : decide (cur - s > _max_session_age) = false := by
    simp only [decide_eq_false_iff_not, _max_session_age]
    simp only [_session_timeout] at hage
    omega
  simp [_get_persistent_edge_driver, needs_new_session, h1, h2]

theorem acquire_state_holds_handle (st : SessionState) (cur : Int) (probe : Bool)
    (fresh : Nat) :
    (_get_persistent_edge_driver st cur probe fresh).state._persistent_driver
      = some (_get_persistent_edge_driver st cur probe fresh).handle := by
  obtain ⟨dr, stt⟩ := st
  rcases dr with _ | d
  · simp [_get_persistent_edge_driver]
  · simp only [_get_persistent_edge_driver]
    split
    · split
      · rfl
      · rfl
    · rfl

/-- C6: when the automation body fails with an exception after the
session was acquired, the session globals after the run equal exactly
the globals the acquire left (the handler at app.py 1204-1207 re-raises
without quitting or replacing the driver), and the state still holds
the acquired handle; the browser is torn down only by the explicit
cleanup (which nulls both globals whenever a driver exists), while a
later acquire against a live, in-date session reuses the handle and
only a failed liveness probe there replaces the process. -/
theorem run_failure_preserves_session (st : SessionState) (cur : Int) (probe : Bool)
    (fresh : Nat) (env : RunEnv) (id e : String)
    (hfail : (_sam_download_with_persistent_session st cur probe fresh env id).2
      = Except.error e) :
    ((_sam_download_with_persistent_session st cur probe fresh env id).1
      = (_get_persistent_edge_driver st cur probe fresh).state)
    ∧ ((_sam_download_with_persistent_session st cur probe fresh env id).1._persistent_driver
      = some (_get_persistent_edge_driver st cur probe fresh).handle)
    ∧ (∀ (st2 : SessionState) (d2 : Nat), st2._persistent_driver = some d2 →
        _cleanup_persistent_session st2 = ⟨none, none⟩)
    ∧ (∀ (st2 : SessionState) (cur2 : Int) (fresh2 d2 : Nat) (s2 : Int),
        st2._persistent_driver = some d2 → st2._session_start_time = some s2 →
        cur2 - s2 ≤ _session_timeout →
        _get_persistent_edge_driver st2 cur2 true fresh2 = ⟨st2, d2, false⟩)
    ∧ (∀ (st2 : SessionState) (cur2 : Int) (fresh2 d2 : Nat) (s2 : Int),
        st2._persistent_driver = some d2 → st2._session_start_time = some s2 →
        cur2 - s2 ≤ _session_timeout →
        _get_persistent_edge_driver st2 cur2 false fresh2
          = ⟨⟨some fresh2, some cur2⟩, fresh2, true⟩) := by
  have hstate : (_sam_download_with_persistent_session st cur probe fresh env id).1
      = (_get_persistent_edge_driver st cur probe fresh).state := by
    cases hb : samAutomationBody env id <;>
      simp [_sam_download_with_persistent_session, hb]
  refine ⟨hstate, ?_, ?_, ?_, ?_⟩
  · rw [hstate]
    exact acquire_state_holds_handle st cur probe fresh
  · intro st2 d2 h2
    obtain ⟨dr2, stt2⟩ := st2
    cases h2
    rfl
  · intro st2 cur2 fresh2 d2 s2 h2 h3 h4
    exact acquire_reuse_core st2 cur2 fresh2 d2 s2 h2 h3 h4
  · intro st2 cur2 fresh2 d2 s2 h2 h3 h4
    exact acquire_dead_probe_replaces st2 cur2 fresh2 d2 s2 h2 h3 h4

/-- An automation-run environment whose search-input resolution fails,
so the body raises at app.py line 998. -/
def failingRunEnv : RunEnv where
  login := ⟨fun _ => false, fun _ => false⟩
  searchFound := false
  oppLinksFound := false
  extract := ⟨[], Except.ok (), Except.ok [], []⟩
  pdfEnv := ⟨false, false, false, false, fun _ => []⟩
  downloadAllFound := false
  attachDirs := fun _ => []

/-- Concrete run of C6's theorem: a failing run against a live session
leaves the globals exactly as acquired; cleanup, reuse and dead-probe
replacement behave as stated at concrete states. -/
theorem run_failure_preserves_session_witness :
    ((_sam_download_with_persistent_session ⟨some 7, some 0⟩ 100 true 99
        failingRunEnv "N1").1
      = (_get_persistent_edge_driver ⟨some 7, some 0⟩ 100 true 99).state)
    ∧ _cleanup_persistent_session ⟨some 5, some 2⟩ = ⟨none, none⟩
    ∧ _get_persistent_edge_driver ⟨some 5, some 2⟩ 50 true 42 = ⟨⟨some 5, some 2⟩, 5, false⟩
    ∧ _get_persistent_edge_driver ⟨some 5, some 2⟩ 50 false 42
        = ⟨⟨some 42, some 50⟩, 42, true⟩ := by
  have h := run_failure_preserves_session ⟨some 7, some 0⟩ 100 true 99 failingRunEnv
    "N1" "Could not find search input on SAM.gov" rfl
  exact ⟨h.1, h.2.2.1 ⟨some 5, some 2⟩ 5 rfl,
    h.2.2.2.1 ⟨some 5, some 2⟩ 50 42 5 2 rfl rfl (by decide),
    h.2.2.2.2 ⟨some 5, some 2⟩ 50 42 5 2 rfl rfl (by decide)⟩

/-- The accumulator update one link element causes (reasoning device
for `extLinks`). -/
def linkStepAcc (el : LinkElem) (acc : List LinkInfo) : List LinkInfo :=
  match el.href, el.text with
  | Except.ok href?, Except.ok txt =>
    let t := txt.trim
    match href? with
    | some h =>
      if h.startsWith "http" && !containsSub h "sam.gov" then
        if (acc.map (fun i => i.url)).contains h then acc
        else acc ++ [⟨h, if t = "" then h else t, "external"⟩]
      else acc
    | none => acc
  | _, _ => acc

theorem extLinks_cons (el : LinkElem) (l : List LinkElem) (acc : List LinkInfo) :
    extLinks (el :: l) acc = extLinks l (linkStepAcc el acc) := by
  obtain ⟨h, t⟩ := el
  cases h with
  | error m => cases t <;> rfl
  | ok href? =>
    cases t with
    | error m => rfl
    | ok txt =>
      cases href? with
      | none => rfl
      | some u =>
        by_cases hc : (u.startsWith "http" && !containsSub u "sam.gov") = true
        · by_cases hd : ((acc.map (fun i => i.url)).contains u) = true
          · simp only [extLinks, linkStepAcc, if_pos hc, if_pos hd]
          · simp only [extLinks, linkStepAcc, if_pos hc, if_neg hd]
        · simp only [extLinks, linkStepAcc, if_neg hc]

theorem linkStepAcc_error (el : LinkElem) (acc : List LinkInfo)
    (h : (∃ m, el.href = Except.error m) ∨ (∃ m, el.text = Except.error m)) :
    linkStepAcc el acc = acc := by
  obtain ⟨hr, tx⟩ := el
  rcases h with ⟨m, hm⟩ | ⟨m, hm⟩
  · simp only at hm
    subst hm
    cases tx <;> rfl
  · simp only at hm
    subst hm
    cases hr <;> rfl

theorem extLinks_skips_error :
    ∀ (pre : List LinkElem) (el : LinkElem) (post : List LinkElem)
      (acc : List LinkInfo),
      ((∃ m, el.href = Except.error m) ∨ (∃ m, el.text = Except.error m)) →
      extLinks (pre ++ el :: post) acc = extLinks (pre ++ post) acc := by
  intro pre
  induction pre with
  | nil =>
    intro el post acc h
    simp only [List.nil_append]
    rw [extLinks_cons, linkStepAcc_error el acc h]
  | cons x xs ih =>
    intro el post acc h
    simp only [List.cons_append]
    rw [extLinks_cons, extLinks_cons]
    exact ih el post (linkStepAcc x acc) h

/-- The accumulator update one attachment element causes (reasoning
device for `extAttachOne`). -/
def attachStepAcc (a : AttachElem) (acc : List AttachmentInfo) :
    List AttachmentInfo :=
  match a.text, a.href with
  | Except.ok txt, Except.ok href? =>
    let text := txt.trim
    let href := href?.getD ""
    let filename := deriveFilename text href
    if filename ≠ "" && !((acc.map (fun i => i.filename)).contains filename) then
      acc ++ [⟨filename, href, text,
        match a.parentSize with
        | Except.error _ => ""
        | Except.ok s => s, "file"⟩]
    else acc
  | _, _ => acc

theorem extAttachOne_cons (a : AttachElem) (l : List AttachElem)
    (acc : List AttachmentInfo) :
    extAttachOne (a :: l) acc = extAttachOne l (attachStepAcc a acc) := by
  obtain ⟨tx, hr, ps⟩ := a
  cases tx with
  | error m => cases hr <;> rfl
  | ok txt =>
    cases hr with
    | error m => rfl
    | ok href? =>
      by_cases hg : (deriveFilename txt.trim (href?.getD "") ≠ ""
          && !((acc.map (fun i => i.filename)).contains
            (deriveFilename txt.trim (href?.getD "")))) = true
      · simp only [extAttachOne, attachStepAcc, if_pos hg]
      · simp only [extAttachOne, attachStepAcc, if_neg hg]

theorem attachStepAcc_error (a : AttachElem) (acc : List AttachmentInfo)
    (h : (∃ m, a.text = Except.error m) ∨ (∃ m, a.href = Except.error m)) :
    attachStepAcc a acc = acc := by
  obtain ⟨tx, hr, ps⟩ := a
  rcases h with ⟨m, hm⟩ | ⟨m, hm⟩
  · simp only at hm
    subst hm
    cases hr <;> rfl
  · simp only at hm
    subst hm
    cases tx <;> rfl

theorem extAttachOne_skips_error :
    ∀ (pre : List AttachElem) (a : AttachElem) (post : List AttachElem)
      (acc : List AttachmentInfo),
      ((∃ m, a.text = Except.error m) ∨ (∃ m, a.href = Except.error m)) →
      extAttachOne (pre ++ a :: post) acc = extAttachOne (pre ++ post) acc := by
  intro pre
  induction pre with
  | nil =>
    intro a post acc h
    simp only [List.nil_append]
    rw [extAttachOne_cons, attachStepAcc_error a acc h]
  | cons x xs ih =>
    intro a post acc h
    simp only [List.cons_append]
    rw [extAttachOne_cons, extAttachOne_cons]
    exact ih a post (attachStepAcc x acc) h

theorem extAttachments_skips_error :
    ∀ (qpre : List (Except String (List AttachElem))) (msg : String)
      (qpost : List (Except String (List AttachElem)))
      (acc : List AttachmentInfo),
      extAttachments (qpre ++ Except.error msg :: qpost) acc
        = extAttachments (qpre ++ qpost) acc := by
  intro qpre
  induction qpre with
  | nil => intro msg qpost acc; rfl
  | cons q qs ih =>
    intro msg qpost acc
    cases q with
    | error m =>
      simp only [List.cons_append, extAttachments]
      exact ih msg qpost acc
    | ok els =>
      simp only [List.cons_append, extAttachments]
      exact ih msg qpost (extAttachOne els acc)

/-- C9: the extraction pass is total - it always returns a
`{links, attachments}` record, because every raise point of the source
lands in a handler. In particular: (i) when no Attachments/Links tab
candidate matches, the result is the empty record, not an error; (ii)
when the tab click itself raises, the outer handler returns the
still-empty record; (iii) a link element whose attribute reads raise is
skipped, leaving exactly the result of the pass without it; (iv) a
raising attachment selector query is skipped the same way; and (v) so
is an attachment element whose reads raise. -/
theorem extraction_total_and_skips :
    (∀ env : ExtractEnv, findTab env.tabCandidates = none →
      _extract_links_and_attachments_info env = ⟨[], []⟩)
    ∧ (∀ (env : ExtractEnv) (tab : Nat) (msg : String),
        findTab env.tabCandidates = some tab →
        env.tabClick = Except.error msg →
        _extract_links_and_attachments_info env = ⟨[], []⟩)
    ∧ (∀ (pre : List LinkElem) (el : LinkElem) (post : List LinkElem)
        (acc : List LinkInfo),
        ((∃ m, el.href = Except.error m) ∨ (∃ m, el.text = Except.error m)) →
        extLinks (pre ++ el :: post) acc = extLinks (pre ++ post) acc)
    ∧ (∀ (qpre : List (Except String (List AttachElem))) (msg : String)
        (qpost : List (Except String (List AttachElem)))
        (acc : List AttachmentInfo),
        extAttachments (qpre ++ Except.error msg :: qpost) acc
          = extAttachments (qpre ++ qpost) acc)
    ∧ (∀ (pre : List AttachElem) (a : AttachElem) (post : List AttachElem)
        (acc : List AttachmentInfo),
        ((∃ m, a.text = Except.error m) ∨ (∃ m, a.href = Except.error m)) →
        extAttachOne (pre ++ a :: post) acc = extAttachOne (pre ++ post) acc) := by
  refine ⟨?_, ?_, extLinks_skips_error, extAttachments_skips_error,
    extAttachOne_skips_error⟩
  · intro env h
    simp [_extract_links_and_attachments_info, h]
  · intro env tab msg h hclick
    simp [_extract_links_and_attachments_info, h, hclick]

/-- Concrete runs of C9's theorem: a page with no tab; a raising tab
click; a raising link element among sound ones; a raising selector; a
raising attachment element. -/
theorem extraction_total_and_skips_witness :
    _extract_links_and_attachments_info ⟨[], Except.ok (), Except.ok [], []⟩ = ⟨[], []⟩
    ∧ _extract_links_and_attachments_info
        ⟨[Except.ok [4]], Except.error "stale element", Except.ok [], []⟩ = ⟨[], []⟩
    ∧ extLinks [⟨Except.error "stale", Except.ok "x"⟩] [] = extLinks [] []
    ∧ extAttachments [Except.error "bad xpath"] [] = extAttachments [] []
    ∧ extAttachOne [⟨Except.ok "a.pdf", Except.error "stale", Except.ok ""⟩] []
        = extAttachOne [] [] := by
  have h := extraction_total_and_skips
  refine ⟨h.1 ⟨[], Except.ok (), Except.ok [], []⟩ rfl,
    h.2.1 ⟨[Except.ok [4]], Except.error "stale element", Except.ok [], []⟩ 4
      "stale element" rfl rfl,
    ?_, ?_, ?_⟩
  · exact h.2.2.1 [] ⟨Except.error "stale", Except.ok "x"⟩ [] []
      (Or.inl ⟨"stale", rfl⟩)
  · exact h.2.2.2.1 [] "bad xpath" [] []
  · exact h.2.2.2.2 [] ⟨Except.ok "a.pdf", Except.error "stale", Except.ok ""⟩ [] []
      (Or.inr ⟨"stale", rfl⟩)

theorem subBadAux_mem :
    ∀ (l : List Char) (b : Bool) (c : Char),
      c ∈ subBadAux b l → c = ' ' ∨ (c ∈ l ∧ isBadChar c = false) := by
  intro l
  induction l with
  | nil => intro b c h; simp [subBadAux] at h
  | cons x xs ih =>
    intro b c h
    by_cases hx : isBadChar x = true
    · cases b with
      | true =>
        simp only [subBadAux, if_pos hx, if_pos rfl] at h
        rcases ih true c h with h1 | ⟨h1, h2⟩
        · exact Or.inl h1
        · exact Or.inr ⟨List.mem_cons_of_mem _ h1, h2⟩
      | false =>
        simp only [subBadAux, if_pos hx] at h
        rcases List.mem_cons.mp h with h1 | h1
        · exact Or.inl h1
        · rcases ih true c h1 with h2 | ⟨h2, h3⟩
          · exact Or.inl h2
          · exact Or.inr ⟨List.mem_cons_of_mem _ h2, h3⟩
    · simp only [subBadAux, if_neg hx] at h
      rcases List.mem_cons.mp h with h1 | h1
      · subst h1
        exact Or.inr ⟨List.mem_cons_self _ _, Bool.not_eq_true _ ▸ hx⟩
      · rcases ih false c h1 with h2 | ⟨h2, h3⟩
        · exact Or.inl h2
        · exact Or.inr ⟨List.mem_cons_of_mem _ h2, h3⟩

theorem collapseAux_mem :
    ∀ (l : List Char) (b : Bool) (c : Char),
      c ∈ collapseAux b l → c = ' ' ∨ (c ∈ l ∧ isPySpace c = false) := by
  intro l
  induction l with
  | nil => intro b c h; simp [collapseAux] at h
  | cons x xs ih =>
    intro b c h
    by_cases hx : isPySpace x = true
    · cases b with
      | true =>
        simp only [collapseAux, if_pos hx, if_pos rfl] at h
        rcases ih true c h with h1 | ⟨h1, h2⟩
        · exact Or.inl h1
        · exact Or.inr ⟨List.mem_cons_of_mem _ h1, h2⟩
      | false =>
        simp only [collapseAux, if_pos hx] at h
        rcases List.mem_cons.mp h with h1 | h1
        · exact Or.inl h1
        · rcases ih true c h1 with h2 | ⟨h2, h3⟩
          · exact Or.inl h2
          · exact Or.inr ⟨List.mem_cons_of_mem _ h2, h3⟩
    · simp only [collapseAux, if_neg hx] at h
      rcases List.mem_cons.mp h with h1 | h1
      · subst h1
        exact Or.inr ⟨List.mem_cons_self _ _, Bool.not_eq_true _ ▸ hx⟩
      · rcases ih false c h1 with h2 | ⟨h2, h3⟩
        · exact Or.inl h2
        · exact Or.inr ⟨List.mem_cons_of_mem _ h2, h3⟩

theorem collapseAux_head_not_space :
    ∀ (l : List Char) (c : Char),
      (collapseAux true l).head? = some c → isPySpace c = false := by
  intro l
  induction l with
  | nil => intro c h; simp [collapseAux] at h
  | cons x xs ih =>
    intro c h
    by_cases hx : isPySpace x = true
    · simp only [collapseAux, if_pos hx, if_pos rfl] at h
      exact ih c h
    · simp only [collapseAux, if_neg hx, List.head?_cons, Option.some.injEq] at h
      subst h
      exact Bool.not_eq_true _ ▸ hx

theorem collapseAux_chain :
    ∀ (l : List Char) (b : Bool),
      List.Chain' (fun a b => isPySpace a = false ∨ isPySpace b = false)
        (collapseAux b l) := by
  intro l
  induction l with
  | nil => intro b; simp [collapseAux]
  | cons x xs ih =>
    intro b
    by_cases hx : isPySpace x = true
    · cases b with
      | true =>
        simp only [collapseAux, if_pos hx, if_pos rfl]
        exact ih true
      | false =>
        simp only [collapseAux, if_pos hx, Bool.false_eq_true, if_false]
        rw [List.chain'_cons']
        refine ⟨?_, ih true⟩
        intro y hy
        exact Or.inr (collapseAux_head_not_space xs y (Option.mem_def.mp hy))
    · have hun : collapseAux b (x :: xs) = x :: collapseAux false xs := by
        simp [collapseAux, hx]
      rw [hun, List.chain'_cons']
      exact ⟨fun y _ => Or.inl (Bool.not_eq_true _ ▸ hx), ih false⟩

theorem dropWhile_head_false (p : Char → Bool) :
    ∀ (l : List Char) (c : Char), (l.dropWhile p).head? = some c → p c = false := by
  intro l
  induction l with
  | nil => intro c h; simp at h
  | cons x xs ih =>
    intro c h
    by_cases hx : p x = true
    · rw [List.dropWhile_cons, if_pos hx] at h
      exact ih c h
    · rw [List.dropWhile_cons, if_neg hx, List.head?_cons] at h
      cases h
      exact Bool.not_eq_true _ ▸ hx

theorem stripChars_eq_rdrop (l : List Char) :
    stripChars l = List.rdropWhile isPySpace (l.dropWhile isPySpace) := rfl

theorem stripChars_within (l : List Char) : stripChars l <:+: l := by
  obtain ⟨u, hu⟩ := List.dropWhile_suffix (l := l) isPySpace
  obtain ⟨v, hv⟩ := List.rdropWhile_prefix isPySpace (l.dropWhile isPySpace)
  refine ⟨u, v, ?_⟩
  rw [stripChars_eq_rdrop, List.append_assoc, hv, hu]

theorem stripChars_head_not_space (l : List Char) (c : Char)
    (h : (stripChars l).head? = some c) : isPySpace c = false := by
  rw [stripChars_eq_rdrop] at h
  cases hm : List.rdropWhile isPySpace (l.dropWhile isPySpace) with
  | nil => rw [hm] at h; cases h
  | cons y ys =>
    rw [hm, List.head?_cons] at h
    cases h
    obtain ⟨r, hr⟩ := List.rdropWhile_prefix isPySpace (l.dropWhile isPySpace)
    rw [hm] at hr
    have hhead : (l.dropWhile isPySpace).head? = some c := by
      rw [← hr]
      rfl
    exact dropWhile_head_false _ l c hhead

theorem chain_of_all_nonspace :
    ∀ l : List Char, (∀ c ∈ l, isPySpace c = false) →
      List.Chain' (fun a b => isPySpace a = false ∨ isPySpace b = false) l := by
  intro l
  induction l with
  | nil => intro _; simp
  | cons x xs ih =>
    intro h
    rw [List.chain'_cons']
    exact ⟨fun y _ => Or.inl (h x (List.mem_cons_self _ _)),
      ih (fun c hc => h c (List.mem_cons_of_mem _ hc))⟩

/-- C8: `_sanitize_folder_name` leaves no non-filesystem-safe character
in its output (every run of them became a single space), normalizes
whitespace (every whitespace character of the output is a plain space,
no two spaces are adjacent, and the output never starts with
whitespace, having been stripped before the final truncation), caps
the result at 120 characters, maps the empty string to `"Untitled"`
and maps `"A/B: Report?"` to `"A B Report"`. -/
theorem sanitize_folder_name_spec (s : String) :
    (∀ c ∈ (_sanitize_folder_name s).data, isBadChar c = false)
    ∧ (∀ c ∈ (_sanitize_folder_name s).data, isPySpace c = true → c = ' ')
    ∧ List.Chain' (fun a b => isPySpace a = false ∨ isPySpace b = false)
        (_sanitize_folder_name s).data
    ∧ (∀ c, (_sanitize_folder_name s).data.head? = some c → isPySpace c = false)
    ∧ (_sanitize_folder_name s).length ≤ 120
    ∧ _sanitize_folder_name "" = "Untitled"
    ∧ _sanitize_folder_name "A/B: Report?" = "A B Report" := by
  have hmem2 : ∀ c ∈ stripChars (collapseWs (subBadRuns (stripChars s.data))),
      isBadChar c = false ∧ (isPySpace c = true → c = ' ') := by
    intro c hc
    have hc1 : c ∈ collapseWs (subBadRuns (stripChars s.data)) :=
      (stripChars_within _).subset hc
    rcases collapseAux_mem _ false c hc1 with h | ⟨h1, h2⟩
    · subst h
      exact ⟨by decide, fun _ => rfl⟩
    · rcases subBadAux_mem _ false c h1 with h3 | ⟨_, h4⟩
      · subst h3
        exact ⟨by decide, fun _ => rfl⟩
      · exact ⟨h4, fun hsp => by rw [h2] at hsp; cases hsp⟩
  by_cases hempty : stripChars (collapseWs (subBadRuns (stripChars s.data))) = []
  · have hstr : _sanitize_folder_name s = "Untitled" := by
      simp only [_sanitize_folder_name]
      rw [if_pos hempty]
      decide
    rw [hstr]
    refine ⟨by decide, by decide, chain_of_all_nonspace _ (by decide), ?_, by decide,
      by decide, by decide⟩
    intro c hc
    rw [show "Untitled".data.head? = some 'U' from rfl] at hc
    injection hc with hc
    subst hc
    decide
  · have hdata : (_sanitize_folder_name s).data
        = (stripChars (collapseWs (subBadRuns (stripChars s.data)))).take 120 := by
      simp only [_sanitize_folder_name]
      rw [if_neg hempty]
    refine ⟨?_, ?_, ?_, ?_, ?_, by decide, by decide⟩
    · intro c hc
      rw [hdata] at hc
      exact (hmem2 c (List.take_subset _ _ hc)).1
    · intro c hc
      rw [hdata] at hc
      exact (hmem2 c (List.take_subset _ _ hc)).2
    · rw [hdata]
      have hch : List.Chain' (fun a b => isPySpace a = false ∨ isPySpace b = false)
          (collapseWs (subBadRuns (stripChars s.data))) :=
        collapseAux_chain _ false
      have hin := List.Chain'.infix hch (stripChars_within _)
      exact List.Chain'.take hin 120
    · intro c hc
      rw [hdata] at hc
      have hh : (stripChars (collapseWs (subBadRuns (stripChars s.data)))).head?
          = some c := by
        cases hL : stripChars (collapseWs (subBadRuns (stripChars s.data))) with
        | nil => rw [hL] at hc; cases hc
        | cons y ys =>
          rw [hL] at hc
          simpa using hc
      exact stripChars_head_not_space _ c hh
    · have h1 : (_sanitize_folder_name s).length
          = (_sanitize_folder_name s).data.length := rfl
      rw [h1, hdata, List.length_take]
      exact min_le_left _ _

/-- Concrete runs of C8's theorem: the spec's worked example and the
empty-input default. -/
theorem sanitize_folder_name_spec_witness :
    _sanitize_folder_name "A/B: Report?" = "A B Report"
    ∧ _sanitize_folder_name "" = "Untitled" :=
  ⟨(sanitize_folder_name_spec "A/B: Report?").2.2.2.2.2.2,
   (sanitize_folder_name_spec "").2.2.2.2.2.1⟩

end SamFilter
